import Mathlib

/-!
Verification of the pane-linking and synchronization engine of the
SyncFileOnlyPlugin (src/main.ts and its near-duplicate evolution).

Panes (WorkspaceLeaf objects) are modelled by stable natural-number ids.
The host workspace is a structure of query functions; the plugin state
holds the `enabled` setting, the `isSyncing` re-entrancy flag and the
`linkedLeaves` map (a JS Map from a leaf to a JS Set of leaves, modelled
as an insertion-ordered association list of insertion-ordered lists).
Each plugin method is translated into a pure function returning the new
state together with the list of `openFile` instructions it issued and a
flag recording whether the issued `openFile` call threw.
-/

namespace SyncFileOnly

/-- A workspace pane (a WorkspaceLeaf): identified by a stable id. -/
abbrev Leaf := Nat

/-- The host workspace as observed by the plugin.

`leaves` is the enumeration order of `iterateAllLeaves` (the live pane
set); `hasView` tells whether `leaf.view` is non-null; `viewFile` is the
`file` property of the view when the view exposes one; `ancestors` is
the parent chain starting at `leaf.parent` (node ids); `rootSplit` is
the id of the main-area root split when present; `createLeafBySplit`
models `workspace.createLeafBySplit(leaf, vertical, false)` (`none`
when the call returns a falsy leaf or throws); `openFileThrows` tells
whether the `openFile` call for a given leaf and path throws
synchronously; `activeLeaf` models `workspace.activeLeaf`. -/
structure Workspace where
  leaves : List Leaf
  hasView : Leaf → Bool
  viewFile : Leaf → Option String
  ancestors : Leaf → List Nat
  rootSplit : Option Nat
  createLeafBySplit : Leaf → Option Leaf
  openFileThrows : Leaf → String → Bool
  activeLeaf : Option Leaf

/-- The `linkedLeaves` field: `Map<WorkspaceLeaf, Set<WorkspaceLeaf>>`,
as an insertion-ordered association list. -/
abbrev LinkMap := List (Leaf × List Leaf)

/-- The mutable plugin state: the recognized setting, the shared
re-entrancy flag and the link registry. -/
structure PluginState where
  enabled : Bool
  isSyncing : Bool
  linkedLeaves : LinkMap

/-- JS `Set.has` on an insertion-ordered list. -/
def setHas (s : List Leaf) (x : Leaf) : Bool :=
  match s with
  | [] => false
  | y :: rest => if y == x then true else setHas rest x

/-- JS `Set.add` on an insertion-ordered list. -/
def setAdd (s : List Leaf) (x : Leaf) : List Leaf :=
  if setHas s x then s else s ++ [x]

/-- JS `Map.get` (returning `undefined` as `none`). -/
def mapGet (m : LinkMap) (k : Leaf) : Option (List Leaf) :=
  match m with
  | [] => none
  | e :: rest => if e.1 == k then some e.2 else mapGet rest k

/-- JS `Map.has`. -/
def mapHas (m : LinkMap) (k : Leaf) : Bool :=
  (mapGet m k).isSome

/-- JS `Map.set`: update the existing entry in place, else append. -/
def mapSet (m : LinkMap) (k : Leaf) (v : List Leaf) : LinkMap :=
  match m with
  | [] => [(k, v)]
  | e :: rest => if e.1 == k then (k, v) :: rest else e :: mapSet rest k v

/-- JS `Map.delete`: remove the entry for `k`. -/
def mapDelete (m : LinkMap) (k : Leaf) : LinkMap :=
  match m with
  | [] => []
  | e :: rest => if e.1 == k then mapDelete rest k else e :: mapDelete rest k

/-- The expression `view && (file in view) ? view.file : null` applied
to `leaf.view`: the document currently shown by a pane. -/
def leafFile (ws : Workspace) (l : Leaf) : Option String :=
  if ws.hasView l then ws.viewFile l else none

/-- The ancestry walk of `linkLeafWithPartner`: starting from
`leaf.parent`, follow `parent` pointers and report whether the
main-area root split is reached before the chain runs out. -/
def walkReachesRoot (root : Nat) : List Nat → Bool
  | [] => false
  | p :: rest => if p == root then true else walkReachesRoot root rest

/-- One step of the `iterateAllLeaves` callback in
`linkLeafWithPartner`: skip leaves outside the root split, then record
the first other leaf showing the same file path. -/
def searchStep (ws : Workspace) (root : Nat) (activeLeaf : Leaf) (activeFilePath : String)
    (partner : Option Leaf) (leaf : Leaf) : Option Leaf :=
  if !(walkReachesRoot root (ws.ancestors leaf)) then partner
  else if leaf != activeLeaf && partner.isNone then
    match leafFile ws leaf with
    | some p => if p == activeFilePath then some leaf else partner
    | none => partner
  else partner

/-- The partner search of `linkLeafWithPartner`: guarded by
`rootSplit` being present, fold the search step over all live leaves. -/
def findPartner (ws : Workspace) (activeLeaf : Leaf) (activeFilePath : String) : Option Leaf :=
  match ws.rootSplit with
  | none => none
  | some root => ws.leaves.foldl (searchStep ws root activeLeaf activeFilePath) none

/-- The registry update at the end of `linkLeafWithPartner`: ensure
both keys exist, clear both sets, then add each leaf to the other set.
The mutation order follows the source line by line. -/
def registerPair (m : LinkMap) (activeLeaf partner : Leaf) : LinkMap :=
  let m1 := if mapHas m activeLeaf then m else mapSet m activeLeaf []
  let m2 := if mapHas m1 partner then m1 else mapSet m1 partner []
  let m3 := mapSet m2 activeLeaf []
  let m4 := mapSet m3 partner []
  let m5 := mapSet m4 activeLeaf (setAdd ((mapGet m4 activeLeaf).getD []) partner)
  mapSet m5 partner (setAdd ((mapGet m5 partner).getD []) activeLeaf)

/-- The candidate half of `linkLeafWithPartner`: the partner search,
followed by creation of a vertical split (loading the source file into
it) when nothing was found and `createIfNone` is set. Returns the
candidate and the `openFile` instructions issued. -/
def linkCandidate (ws : Workspace) (activeLeaf : Leaf) (activeFilePath : String)
    (createIfNone : Bool) : Option Leaf × List (Leaf × String) :=
  if (findPartner ws activeLeaf activeFilePath).isNone && createIfNone then
    match ws.createLeafBySplit activeLeaf with
    | some newLeaf => (some newLeaf, [(newLeaf, activeFilePath)])
    | none => (none, [])
  else (findPartner ws activeLeaf activeFilePath, [])

/-- `linkLeafWithPartner(activeLeaf, { createIfNone })`: returns the
partner (or `null`), the updated registry, and the `openFile`
instructions issued (the open of the source file into a newly created
split). -/
def linkLeafWithPartner (ws : Workspace) (m : LinkMap) (activeLeaf : Leaf)
    (createIfNone : Bool) : Option Leaf × LinkMap × List (Leaf × String) :=
  match leafFile ws activeLeaf with
  | none => (none, m, [])
  | some activeFilePath =>
    match linkCandidate ws activeLeaf activeFilePath createIfNone with
    | (some p, loads) => (some p, registerPair m activeLeaf p, loads)
    | (none, loads) => (none, m, loads)

/-- The command callback `link-pane-for-sync`: read the active leaf and
call `linkLeafWithPartner` with `createIfNone: true`. Returns the new
state, the partner result and the issued loads. -/
def linkPaneCommand (ws : Workspace) (st : PluginState) :
    PluginState × Option Leaf × List (Leaf × String) :=
  match ws.activeLeaf with
  | none => (st, none, [])
  | some activeLeaf =>
    let r := linkLeafWithPartner ws st.linkedLeaves activeLeaf true
    ({ st with linkedLeaves := r.2.1 }, r.1, r.2.2)

/-- `syncFileToLinkedLeaves(sourceLeaf, file)`: guard on a null file,
set `isSyncing`, open the file in the first element of the source
linked set when that leaf has a view, and reset `isSyncing` in the
`finally` block (so the reset happens even when `openFile` throws).
Returns the new state, the issued loads and whether the call threw. -/
def syncFileToLinkedLeaves (ws : Workspace) (st : PluginState) (sourceLeaf : Leaf)
    (file : Option String) : PluginState × List (Leaf × String) × Bool :=
  match file with
  | none => (st, [], false)
  | some f =>
    let stIn := { st with isSyncing := true }
    let body : List (Leaf × String) × Bool :=
      match mapGet stIn.linkedLeaves sourceLeaf with
      | some linkedSet =>
        if linkedSet.length > 0 then
          (match linkedSet with
           | leaf :: _ =>
             if ws.hasView leaf then ([(leaf, f)], ws.openFileThrows leaf f) else ([], false)
           | [] => ([], false))
        else ([], false)
      | none => ([], false)
    ({ stIn with isSyncing := false }, body.1, body.2)

/-- The `active-leaf-change` handler: return early when the feature is
disabled, a sync is in flight, or no leaf is given; otherwise sync the
file shown by the leaf, when there is one. -/
def onActiveLeafChange (ws : Workspace) (st : PluginState) (leaf : Option Leaf) :
    PluginState × List (Leaf × String) × Bool :=
  if !st.enabled || st.isSyncing || leaf.isNone then (st, [], false)
  else
    match leaf with
    | some l =>
      match leafFile ws l with
      | some f => syncFileToLinkedLeaves ws st l (some f)
      | none => (st, [], false)
    | none => (st, [], false)

/-- The `file-open` handler of the near-duplicate main file: return
early when disabled, syncing or the file is null; otherwise sync the
active leaf when it exists and has a view. -/
def onFileOpen (ws : Workspace) (st : PluginState) (file : Option String) :
    PluginState × List (Leaf × String) × Bool :=
  if !st.enabled || st.isSyncing || file.isNone then (st, [], false)
  else
    match ws.activeLeaf with
    | some leaf => if ws.hasView leaf then syncFileToLinkedLeaves ws st leaf file else (st, [], false)
    | none => (st, [], false)

/-- `cleanupClosedLeaves()`: collect the live leaves, collect the map
keys absent from the live set, and delete exactly those keys. -/
def cleanupClosedLeaves (ws : Workspace) (st : PluginState) : PluginState :=
  let activeLeaves := ws.leaves
  let keysToDelete :=
    st.linkedLeaves.foldl
      (fun ks e => if setHas activeLeaves e.1 then ks else ks ++ [e.1]) ([] : List Leaf)
  { st with linkedLeaves := keysToDelete.foldl mapDelete st.linkedLeaves }

/-- The registry projection `getPartner(p)` of the spec: the first
element of the linked set of `p`, which is the leaf the propagator
would target. -/
def getPartner (m : LinkMap) (p : Leaf) : Option Leaf :=
  match mapGet m p with
  | some (x :: _) => some x
  | _ => none

/-- The registry projection `allLinkedPanes()` of the spec: the panes
holding a non-empty linked set, exactly the panes the indicator
presenter marks (`linkedSet.size > 0`). -/
def allLinkedPanes (m : LinkMap) : List Leaf :=
  (m.filter (fun e => decide (0 < e.2.length))).map (fun e => e.1)

/-- Boolean check that the link relation is symmetric: every member of
every linked set points back. -/
def symmCheck (m : LinkMap) : Bool :=
  m.all (fun e => e.2.all (fun b => setHas ((mapGet m b).getD []) e.1))

/-- The registry states reachable by sequences of link-establishment
operations and reconcile calls, from the empty initial map. -/
inductive Reachable : LinkMap → Prop where
  | init : Reachable []
  | link (ws : Workspace) (a : Leaf) (c : Bool) {m : LinkMap} :
      Reachable m → Reachable (linkLeafWithPartner ws m a c).2.1
  | cleanup (ws : Workspace) (e i : Bool) {m : LinkMap} :
      Reachable m → Reachable (cleanupClosedLeaves ws { enabled := e, isSyncing := i, linkedLeaves := m }).linkedLeaves

/-- A workspace with panes 1 and 2 in the main area, both showing
the document a.md. -/
def wsTwoPanes : Workspace where
  leaves := [1, 2]
  hasView := fun _ => true
  viewFile := fun _ => some "a.md"
  ancestors := fun _ => [100]
  rootSplit := some 100
  createLeafBySplit := fun _ => none
  openFileThrows := fun _ _ => false
  activeLeaf := some 1

/-- A later workspace: pane 2 is gone, pane 3 now shows a.md next to
pane 1 in the main area. -/
def wsThirdPane : Workspace where
  leaves := [1, 3]
  hasView := fun _ => true
  viewFile := fun _ => some "a.md"
  ancestors := fun _ => [100]
  rootSplit := some 100
  createLeafBySplit := fun _ => none
  openFileThrows := fun _ _ => false
  activeLeaf := some 1

/-- A workspace in which only pane 1 is live; pane 2 was closed and its
view is gone. -/
def wsOnlyPaneOne : Workspace where
  leaves := [1]
  hasView := fun l => l == 1
  viewFile := fun l => if l == 1 then some "a.md" else none
  ancestors := fun _ => [100]
  rootSplit := some 100
  createLeafBySplit := fun _ => none
  openFileThrows := fun _ _ => false
  activeLeaf := some 1

/-- A workspace with main-area pane 1 and sidebar pane 5, both showing
a.md; the ancestor chain of pane 5 never reaches the root split. -/
def wsWithSidebar : Workspace where
  leaves := [1, 5]
  hasView := fun _ => true
  viewFile := fun _ => some "a.md"
  ancestors := fun l => if l == 5 then [200] else [100]
  rootSplit := some 100
  createLeafBySplit := fun _ => none
  openFileThrows := fun _ _ => false
  activeLeaf := some 1

/-- A workspace like wsTwoPanes in which every openFile call throws. -/
def wsThrowing : Workspace where
  leaves := [1, 2]
  hasView := fun _ => true
  viewFile := fun _ => some "a.md"
  ancestors := fun _ => [100]
  rootSplit := some 100
  createLeafBySplit := fun _ => none
  openFileThrows := fun _ _ => true
  activeLeaf := some 1

/-- A plugin state with the feature disabled and an empty registry. -/
def stDisabled : PluginState :=
  { enabled := false, isSyncing := false, linkedLeaves := [] }

/-- A plugin state with panes 1 and 2 linked to each other. -/
def stLinked12 : PluginState :=
  { enabled := true, isSyncing := false, linkedLeaves := [(1, [2]), (2, [1])] }

/-- The registry after linking pane 1 with pane 2 and then re-linking
pane 1 with pane 3. -/
def relinkChain : LinkMap :=
  (linkLeafWithPartner wsThirdPane (linkLeafWithPartner wsTwoPanes [] 1 true).2.1 1 true).2.1

/-- Boolean check that every linked set has at most one member. -/
def exclCheck (m : LinkMap) : Bool :=
  m.all (fun e => decide (e.2.length ≤ 1))

theorem beq_false_of_ne {a b : Leaf} (h : a ≠ b) : (a == b) = false := by
  cases hab : a == b
  · rfl
  · exact absurd (eq_of_beq hab) h

theorem setHas_append_single (s : List Leaf) (y x : Leaf) :
    setHas (s ++ [y]) x = (setHas s x || (y == x)) := by
  induction s with
  | nil =>
    by_cases h : y = x
    · subst h; simp [setHas]
    · simp [setHas, h, beq_false_of_ne h]
  | cons z s ih =>
    by_cases h : z = x <;> simp [setHas, h, ih]

theorem mapGet_mapSet (m : LinkMap) (k k' : Leaf) (v : List Leaf) :
    mapGet (mapSet m k v) k' = if k' = k then some v else mapGet m k' := by
  induction m with
  | nil =>
    by_cases h : k' = k
    · subst h; simp [mapSet, mapGet]
    · simp [mapSet, mapGet, h, beq_false_of_ne (Ne.symm h)]
  | cons e rest ih =>
    by_cases he : e.1 = k
    · by_cases h : k' = k
      · subst h; simp [mapSet, mapGet, he]
      · simp [mapSet, mapGet, he, h, beq_false_of_ne (Ne.symm h)]
    · by_cases h : k' = k
      · subst h
        simp [mapSet, mapGet, he, ih, beq_false_of_ne he]
      · simp [mapSet, mapGet, he, h, ih, beq_false_of_ne he]

theorem mapGet_mapDelete (m : LinkMap) (k k' : Leaf) :
    mapGet (mapDelete m k) k' = if k' = k then none else mapGet m k' := by
  induction m with
  | nil => simp [mapDelete, mapGet]
  | cons e rest ih =>
    by_cases he : e.1 = k
    · by_cases h : k' = k
      · subst h; simp [mapDelete, mapGet, he, ih]
      · simp [mapDelete, mapGet, he, h, ih, Ne.symm h]
    · by_cases h : k' = k
      · subst h
        simp [mapDelete, mapGet, he, ih, beq_false_of_ne he]
      · by_cases he' : e.1 = k' <;>
          simp [mapDelete, mapGet, he, h, he', ih]

theorem mapGet_foldl_mapDelete (ks : List Leaf) (m : LinkMap) (k : Leaf) :
    mapGet (ks.foldl mapDelete m) k = if setHas ks k then none else mapGet m k := by
  induction ks generalizing m with
  | nil => simp [setHas]
  | cons j ks ih =>
    rw [List.foldl_cons, ih]
    by_cases h : j = k
    · subst h
      simp [mapGet_mapDelete, setHas]
    · by_cases hs : setHas ks k <;>
        simp [mapGet_mapDelete, setHas, hs, Ne.symm h, beq_false_of_ne h]

theorem keysToDelete_setHas (live : List Leaf) (m : LinkMap) (acc : List Leaf) (k : Leaf) :
    setHas (m.foldl (fun ks e => if setHas live e.1 then ks else ks ++ [e.1]) acc) k =
      (setHas acc k || ((mapGet m k).isSome && !setHas live k)) := by
  induction m generalizing acc with
  | nil => simp [mapGet]
  | cons e rest ih =>
    rw [List.foldl_cons, ih]
    by_cases he : e.1 = k
    · subst he
      by_cases hl : setHas live e.1 <;>
        simp [mapGet, hl, setHas_append_single, Bool.or_assoc, Bool.or_comm]
    · by_cases hl : setHas live e.1 <;>
        simp [mapGet, he, hl, setHas_append_single, beq_false_of_ne he]

theorem cleanup_mapGet (ws : Workspace) (st : PluginState) (k : Leaf) :
    mapGet (cleanupClosedLeaves ws st).linkedLeaves k =
      if setHas ws.leaves k then mapGet st.linkedLeaves k else none := by
  unfold cleanupClosedLeaves
  rw [mapGet_foldl_mapDelete, keysToDelete_setHas]
  by_cases hl : setHas ws.leaves k
  · simp [setHas, hl]
  · cases hm : mapGet st.linkedLeaves k with
    | none => simp [setHas, hl, hm]
    | some v => simp [setHas, hl, hm]

theorem registerPair_get_active (m : LinkMap) (a p : Leaf) (h : a ≠ p) :
    mapGet (registerPair m a p) a = some [p] := by
  simp [registerPair, mapGet_mapSet, h, Ne.symm h, setAdd, setHas]

theorem registerPair_get_partner (m : LinkMap) (a p : Leaf) (h : a ≠ p) :
    mapGet (registerPair m a p) p = some [a] := by
  simp [registerPair, mapGet_mapSet, h, Ne.symm h, setAdd, setHas]

theorem registerPair_get_self (m : LinkMap) (a : Leaf) :
    mapGet (registerPair m a a) a = some [a] := by
  simp [registerPair, mapGet_mapSet, setAdd, setHas]

theorem registerPair_get_other (m : LinkMap) (a p k : Leaf) (ha : k ≠ a) (hp : k ≠ p) :
    mapGet (registerPair m a p) k = mapGet m k := by
  simp only [registerPair]
  split_ifs <;> simp [mapGet_mapSet, ha, hp]

theorem linkCandidate_of_false (ws : Workspace) (a : Leaf) (path : String) :
    linkCandidate ws a path false = (findPartner ws a path, []) := by
  simp [linkCandidate]

theorem linkLeafWithPartner_map_of_partner (ws : Workspace) (m : LinkMap) (a p : Leaf)
    (c : Bool) (hl : (linkLeafWithPartner ws m a c).1 = some p) :
    (linkLeafWithPartner ws m a c).2.1 = registerPair m a p := by
  unfold linkLeafWithPartner at hl ⊢
  cases hf : leafFile ws a with
  | none =>
    rw [hf] at hl
    dsimp only at hl
    exact Option.noConfusion hl
  | some path =>
    rw [hf] at hl
    dsimp only at hl ⊢
    cases hc : linkCandidate ws a path c with
    | mk copt loads =>
      rw [hc] at hl
      cases copt with
      | none =>
        dsimp only at hl
        exact Option.noConfusion hl
      | some q =>
        dsimp only at hl ⊢
        simp only [Option.some.injEq] at hl
        subst hl
        rfl

theorem linkLeafWithPartner_map_self_or (ws : Workspace) (m : LinkMap) (a : Leaf) (c : Bool) :
    (linkLeafWithPartner ws m a c).2.1 = m ∨
      ∃ p, (linkLeafWithPartner ws m a c).2.1 = registerPair m a p := by
  unfold linkLeafWithPartner
  cases hf : leafFile ws a with
  | none => left; rfl
  | some path =>
    dsimp only
    cases hc : linkCandidate ws a path c with
    | mk copt loads =>
      cases copt with
      | none => left; rfl
      | some q => right; exact ⟨q, rfl⟩

theorem searchStep_inv (ws : Workspace) (root : Nat) (a : Leaf) (f : String)
    (acc : Option Leaf) (x r : Leaf)
    (hacc : ∀ s, acc = some s → walkReachesRoot root (ws.ancestors s) = true)
    (h : searchStep ws root a f acc x = some r) :
    walkReachesRoot root (ws.ancestors r) = true := by
  by_cases hw : walkReachesRoot root (ws.ancestors x) = true
  · unfold searchStep at h
    rw [hw] at h
    simp only [Bool.not_true, Bool.false_eq_true, if_false] at h
    by_cases hc : (x != a && acc.isNone) = true
    · rw [if_pos hc] at h
      cases hf : leafFile ws x with
      | none => rw [hf] at h; exact hacc r h
      | some path =>
        rw [hf] at h
        dsimp only at h
        by_cases hpf : (path == f) = true
        · rw [if_pos hpf] at h
          injection h with h
          subst h
          exact hw
        · rw [if_neg (by simp [hpf])] at h
          exact hacc r h
    · rw [if_neg (by simp [hc])] at h
      exact hacc r h
  · have hw' : walkReachesRoot root (ws.ancestors x) = false := by
      cases hww : walkReachesRoot root (ws.ancestors x)
      · rfl
      · exact absurd hww hw
    unfold searchStep at h
    rw [hw'] at h
    simp only [Bool.not_false, if_true] at h
    exact hacc r h

theorem findPartner_reaches_root (ws : Workspace) (a : Leaf) (f : String) (p : Leaf)
    (root : Nat) (hroot : ws.rootSplit = some root)
    (h : findPartner ws a f = some p) :
    walkReachesRoot root (ws.ancestors p) = true := by
  unfold findPartner at h
  rw [hroot] at h
  have main : ∀ (l : List Leaf) (acc : Option Leaf),
      (∀ s, acc = some s → walkReachesRoot root (ws.ancestors s) = true) →
      l.foldl (searchStep ws root a f) acc = some p →
      walkReachesRoot root (ws.ancestors p) = true := by
    intro l
    induction l with
    | nil => intro acc hacc hh; exact hacc p hh
    | cons x l ih =>
      intro acc hacc hh
      rw [List.foldl_cons] at hh
      exact ih _ (fun s hs => searchStep_inv ws root a f acc x s hacc hs) hh
  exact main ws.leaves none (fun s hs => Option.noConfusion hs) h

theorem all_mapSet (m : LinkMap) (P : Leaf × List Leaf → Bool) (k : Leaf) (v : List Leaf)
    (hm : m.all P = true) (hv : P (k, v) = true) : (mapSet m k v).all P = true := by
  induction m with
  | nil => simp [mapSet, hv]
  | cons e rest ih =>
    simp only [List.all_cons, Bool.and_eq_true] at hm
    by_cases hek : e.1 = k
    · simp [mapSet, hek, List.all_cons, hv, hm.2]
    · simp [mapSet, beq_false_of_ne hek, List.all_cons, hm.1, ih hm.2]

theorem all_mapDelete (m : LinkMap) (P : Leaf × List Leaf → Bool) (k : Leaf)
    (hm : m.all P = true) : (mapDelete m k).all P = true := by
  induction m with
  | nil => simp [mapDelete]
  | cons e rest ih =>
    simp only [List.all_cons, Bool.and_eq_true] at hm
    by_cases hek : e.1 = k
    · simp [mapDelete, hek, ih hm.2]
    · simp [mapDelete, beq_false_of_ne hek, List.all_cons, hm.1, ih hm.2]

theorem all_foldl_mapDelete (ks : List Leaf) (m : LinkMap) (P : Leaf × List Leaf → Bool)
    (hm : m.all P = true) : (ks.foldl mapDelete m).all P = true := by
  induction ks generalizing m with
  | nil => exact hm
  | cons j ks ih =>
    rw [List.foldl_cons]
    exact ih _ (all_mapDelete m P j hm)

theorem exclCheck_mapSet (m : LinkMap) (k : Leaf) (v : List Leaf)
    (hm : exclCheck m = true) (hv : v.length ≤ 1) : exclCheck (mapSet m k v) = true :=
  all_mapSet m _ k v hm (by simpa using hv)

theorem exclCheck_mapSet4 (b : LinkMap) (x y u v : Leaf) (hb : exclCheck b = true) :
    exclCheck (mapSet (mapSet (mapSet (mapSet b x []) y []) x [u]) y [v]) = true :=
  exclCheck_mapSet _ y [v]
    (exclCheck_mapSet _ x [u]
      (exclCheck_mapSet _ y []
        (exclCheck_mapSet _ x [] hb (by simp)) (by simp)) (by simp)) (by simp)

theorem registerPair_exclCheck (m : LinkMap) (a p : Leaf)
    (hm : exclCheck m = true) : exclCheck (registerPair m a p) = true := by
  have base : exclCheck
      (if mapHas (if mapHas m a = true then m else mapSet m a []) p = true then
        if mapHas m a = true then m else mapSet m a []
      else mapSet (if mapHas m a = true then m else mapSet m a []) p []) = true := by
    split
    · split
      · exact hm
      · exact exclCheck_mapSet m p [] hm (by simp)
    · have hset := exclCheck_mapSet m a [] hm (by simp)
      split
      · exact hset
      · exact exclCheck_mapSet _ p [] hset (by simp)
  unfold registerPair
  rcases eq_or_ne a p with h | h
  · subst h
    simp [mapGet_mapSet, setAdd, setHas]
    exact exclCheck_mapSet4 _ a a a a base
  · simp [mapGet_mapSet, setAdd, setHas, h, Ne.symm h]
    exact exclCheck_mapSet4 _ a p p a base

theorem linkLeafWithPartner_exclCheck (ws : Workspace) (m : LinkMap) (a : Leaf) (c : Bool)
    (hm : exclCheck m = true) : exclCheck (linkLeafWithPartner ws m a c).2.1 = true := by
  rcases linkLeafWithPartner_map_self_or ws m a c with h | ⟨p, h⟩
  · rw [h]; exact hm
  · rw [h]; exact registerPair_exclCheck m a p hm

theorem cleanup_exclCheck (ws : Workspace) (st : PluginState)
    (hm : exclCheck st.linkedLeaves = true) :
    exclCheck (cleanupClosedLeaves ws st).linkedLeaves = true := by
  unfold exclCheck at hm ⊢
  unfold cleanupClosedLeaves
  dsimp only
  exact all_foldl_mapDelete _ _ _ hm

theorem allLinkedPanes_mem (m : LinkMap) (k x : Leaf) (xs : List Leaf)
    (h : mapGet m k = some (x :: xs)) : setHas (allLinkedPanes m) k = true := by
  induction m with
  | nil => exact Option.noConfusion h
  | cons e rest ih =>
    by_cases hek : e.1 = k
    · subst hek
      simp only [mapGet, beq_self_eq_true, if_true, Option.some.injEq] at h
      unfold allLinkedPanes
      rw [List.filter_cons]
      simp [h, setHas]
    · have hbeq : (e.1 == k) = false := beq_false_of_ne hek
      simp only [mapGet, hbeq, Bool.false_eq_true, if_false] at h
      have hrest := ih h
      unfold allLinkedPanes at hrest ⊢
      rw [List.filter_cons]
      split
      · simp [setHas, hbeq, hrest]
      · exact hrest

/-- Claim C1, counterexample: the claim as stated fails on the code.
After the operation sequence that links pane 1 with pane 2 and then
re-links pane 1 with pane 3 (both successful linkLeafWithPartner
calls), the relation is not symmetric: the linked set of pane 2 still
contains pane 1, while the linked set of pane 1 contains only
pane 3. -/
theorem relink_breaks_symmetry :
    symmCheck relinkChain = false ∧
    mapGet relinkChain 2 = some [1] ∧
    mapGet relinkChain 1 = some [3] := by decide

/-- Claim C1 (amended): over every sequence of link-establishment and
reconcile operations the relation stays exclusive — every linked set
in the registry has at most one member — but it does not stay
symmetric: after a re-link, the former partner can keep a stale
one-directional reference to the re-linked pane. -/
theorem reachable_linkMap_exclusive {m : LinkMap} (h : Reachable m) :
    exclCheck m = true := by
  induction h with
  | init => rfl
  | link ws a c hr ih => exact linkLeafWithPartner_exclCheck ws _ a c ih
  | cleanup ws e i hr ih => exact cleanup_exclCheck ws _ ih

/-- Witness for the C1 theorem at the concrete two-link sequence. -/
theorem reachable_linkMap_exclusive_witness : exclCheck relinkChain = true :=
  reachable_linkMap_exclusive
    (Reachable.link wsThirdPane 1 true (Reachable.link wsTwoPanes 1 true Reachable.init))

/-- Claim C2, counterexample: after the re-link of pane 1 from pane 2
to pane 3, pane 2 does not lose its link: getPartner(pane 2) is still
pane 1 and pane 2 is still among the linked panes, contradicting the
claim that pane 2 has no partner and is no longer marked linked. -/
theorem relink_stale_partner_remains :
    getPartner relinkChain 2 = some 1 ∧
    setHas (allLinkedPanes relinkChain) 2 = true := by decide

/-- Claim C2 (amended): when pane p1, linked to pane p2, is
successfully re-linked to a third pane p3, afterwards p1 and p3 are
mutually linked, but p2 is not cleared: its linked set still contains
p1, so getPartner(p2) is still p1 and p2 stays in the linked set. -/
theorem relink_old_partner_keeps_link (ws : Workspace) (m : LinkMap) (p1 p2 p3 : Leaf)
    (h12 : mapGet m p2 = some [p1])
    (hlink : (linkLeafWithPartner ws m p1 true).1 = some p3)
    (h21 : p2 ≠ p1) (h23 : p2 ≠ p3) (h13 : p1 ≠ p3) :
    getPartner (linkLeafWithPartner ws m p1 true).2.1 p1 = some p3 ∧
    getPartner (linkLeafWithPartner ws m p1 true).2.1 p3 = some p1 ∧
    getPartner (linkLeafWithPartner ws m p1 true).2.1 p2 = some p1 ∧
    setHas (allLinkedPanes (linkLeafWithPartner ws m p1 true).2.1) p2 = true := by
  have hmap := linkLeafWithPartner_map_of_partner ws m p1 p3 true hlink
  rw [hmap]
  refine ⟨?_, ?_, ?_, ?_⟩
  · simp [getPartner, registerPair_get_active m p1 p3 h13]
  · simp [getPartner, registerPair_get_partner m p1 p3 h13]
  · simp [getPartner, registerPair_get_other m p1 p3 p2 h21 h23, h12]
  · exact allLinkedPanes_mem _ p2 p1 []
      (by rw [registerPair_get_other m p1 p3 p2 h21 h23, h12])

/-- Witness for the C2 theorem at the concrete re-link of pane 1 from
pane 2 to pane 3. -/
theorem relink_old_partner_keeps_link_witness :
    getPartner (linkLeafWithPartner wsThirdPane [(1, [2]), (2, [1])] 1 true).2.1 1 = some 3 ∧
    getPartner (linkLeafWithPartner wsThirdPane [(1, [2]), (2, [1])] 1 true).2.1 3 = some 1 ∧
    getPartner (linkLeafWithPartner wsThirdPane [(1, [2]), (2, [1])] 1 true).2.1 2 = some 1 ∧
    setHas (allLinkedPanes (linkLeafWithPartner wsThirdPane [(1, [2]), (2, [1])] 1 true).2.1) 2
      = true :=
  relink_old_partner_keeps_link wsThirdPane [(1, [2]), (2, [1])] 1 2 3
    (by decide) (by decide) (by decide) (by decide) (by decide)

/-- Claim C3, counterexample: panes 1 and 2 are linked and pane 2 is
closed (the live set is just pane 1). After cleanupClosedLeaves the
entry of the closed pane 2 is removed, but the linked set of the
surviving pane 1 still references pane 2 — a link entry referencing
the removed pane remains in the registry. -/
theorem cleanup_leaves_dangling_reference :
    (cleanupClosedLeaves wsOnlyPaneOne stLinked12).linkedLeaves = [(1, [2])] ∧
    setHas ((mapGet (cleanupClosedLeaves wsOnlyPaneOne stLinked12).linkedLeaves 1).getD []) 2
      = true ∧
    mapGet (cleanupClosedLeaves wsOnlyPaneOne stLinked12).linkedLeaves 2 = none := by decide

/-- Claim C3 (amended): after cleanupClosedLeaves a registry entry
survives exactly when its key pane is in the live set: the closed
pane loses its own entry, but the entries of surviving panes are kept
unchanged, so a surviving partner linked set may still reference the
closed pane. -/
theorem cleanup_removes_only_dead_keys (ws : Workspace) (st : PluginState) (k : Leaf) :
    mapGet (cleanupClosedLeaves ws st).linkedLeaves k =
      if setHas ws.leaves k then mapGet st.linkedLeaves k else none :=
  cleanup_mapGet ws st k

/-- Claim C9: cleanupClosedLeaves deletes only entries whose key pane
is absent from the live set; for every live pane the registry entry,
including the contents of its linked set, is unchanged by the call. -/
theorem cleanup_preserves_live_entries (ws : Workspace) (st : PluginState) (k : Leaf)
    (h : setHas ws.leaves k = true) :
    mapGet (cleanupClosedLeaves ws st).linkedLeaves k = mapGet st.linkedLeaves k := by
  rw [cleanup_mapGet, if_pos h]

/-- Witness for the C9 theorem: live pane 1 keeps its entry across a
cleanup that deletes the entry of closed pane 2. -/
theorem cleanup_preserves_live_entries_witness :
    mapGet (cleanupClosedLeaves wsOnlyPaneOne stLinked12).linkedLeaves 1 =
      mapGet stLinked12.linkedLeaves 1 :=
  cleanup_preserves_live_entries wsOnlyPaneOne stLinked12 1 (by decide)

/-- Claim C4: when a navigation or active-pane event is raised while
the shared re-entrancy flag isSyncing is set, both handlers return
without instructing any document load and without changing state. In
particular, the event that a propagation raises for the partner pane
is delivered while the flag is set (syncFileToLinkedLeaves holds it
for the duration of the call), so it never triggers a second
propagation back into the source pane. -/
theorem syncing_flag_suppresses_events (ws : Workspace) (st : PluginState)
    (l : Option Leaf) (f : Option String) (h : st.isSyncing = true) :
    onActiveLeafChange ws st l = (st, [], false) ∧
    onFileOpen ws st f = (st, [], false) := by
  constructor
  · unfold onActiveLeafChange
    rw [h]
    simp
  · unfold onFileOpen
    rw [h]
    simp

/-- Witness for the C4 theorem: with panes 1 and 2 linked and the flag
set during the propagation from pane 1, the event for pane 2 is
suppressed. -/
theorem syncing_flag_suppresses_events_witness :
    onActiveLeafChange wsTwoPanes { stLinked12 with isSyncing := true } (some 2) =
      ({ stLinked12 with isSyncing := true }, [], false) ∧
    onFileOpen wsTwoPanes { stLinked12 with isSyncing := true } (some "a.md") =
      ({ stLinked12 with isSyncing := true }, [], false) :=
  syncing_flag_suppresses_events wsTwoPanes { stLinked12 with isSyncing := true }
    (some 2) (some "a.md") rfl

/-- Claim C5: when the source pane shows no document,
linkLeafWithPartner fails as NoActiveDocument: it returns null, makes
no link, issues no load, and leaves the registry unchanged. -/
theorem link_no_active_file_no_change (ws : Workspace) (m : LinkMap) (l : Leaf) (c : Bool)
    (h : leafFile ws l = none) :
    linkLeafWithPartner ws m l c = (none, m, []) := by
  unfold linkLeafWithPartner
  rw [h]

/-- Witness for the C5 theorem: pane 2 has no view in wsOnlyPaneOne,
so linking it changes nothing. -/
theorem link_no_active_file_no_change_witness :
    linkLeafWithPartner wsOnlyPaneOne [(1, [2])] 2 true = (none, [(1, [2])], []) :=
  link_no_active_file_no_change wsOnlyPaneOne [(1, [2])] 2 true (by decide)

/-- Claim C6: a pane whose ancestor walk does not reach the main-area
root split is never selected as a partner, neither by the search nor
by linkLeafWithPartner without creation, even when it displays the
same document as the source pane. -/
theorem sidebar_leaf_never_partner (ws : Workspace) (m : LinkMap) (a p : Leaf)
    (f : String) (root : Nat) (hroot : ws.rootSplit = some root)
    (hwalk : walkReachesRoot root (ws.ancestors p) = false) :
    findPartner ws a f ≠ some p ∧ (linkLeafWithPartner ws m a false).1 ≠ some p := by
  have hfp : ∀ g, findPartner ws a g ≠ some p := by
    intro g hc
    have hr := findPartner_reaches_root ws a g p root hroot hc
    rw [hwalk] at hr
    exact Bool.noConfusion hr
  refine ⟨hfp f, ?_⟩
  intro hc
  unfold linkLeafWithPartner at hc
  cases hf : leafFile ws a with
  | none =>
    rw [hf] at hc
    dsimp only at hc
    exact Option.noConfusion hc
  | some path =>
    rw [hf] at hc
    dsimp only at hc
    rw [linkCandidate_of_false] at hc
    cases hfp2 : findPartner ws a path with
    | none =>
      rw [hfp2] at hc
      dsimp only at hc
      exact Option.noConfusion hc
    | some q =>
      rw [hfp2] at hc
      dsimp only at hc
      simp only [Option.some.injEq] at hc
      subst hc
      exact hfp path hfp2

/-- Witness for the C6 theorem: sidebar pane 5 shows the same document
as pane 1 but is never selected. -/
theorem sidebar_leaf_never_partner_witness :
    findPartner wsWithSidebar 1 "a.md" ≠ some 5 ∧
    (linkLeafWithPartner wsWithSidebar [] 1 false).1 ≠ some 5 :=
  sidebar_leaf_never_partner wsWithSidebar [] 1 5 "a.md" 100 (by decide) (by decide)

/-- Claim C7: the enabled flag gates only event-driven
synchronization: with enabled false neither event handler instructs
any load or changes state, while the link command behaves identically
(same partner result, same issued loads, same resulting registry)
whether enabled is false or true. -/
theorem enabled_gates_only_event_sync (ws : Workspace) (st : PluginState)
    (l : Option Leaf) (f : Option String) (h : st.enabled = false) :
    onActiveLeafChange ws st l = (st, [], false) ∧
    onFileOpen ws st f = (st, [], false) ∧
    (linkPaneCommand ws st).1.linkedLeaves =
      (linkPaneCommand ws { st with enabled := true }).1.linkedLeaves ∧
    (linkPaneCommand ws st).2 = (linkPaneCommand ws { st with enabled := true }).2 := by
  refine ⟨?_, ?_, ?_, ?_⟩
  · unfold onActiveLeafChange
    rw [h]
    simp
  · unfold onFileOpen
    rw [h]
    simp
  · unfold linkPaneCommand
    cases ws.activeLeaf <;> rfl
  · unfold linkPaneCommand
    cases ws.activeLeaf <;> rfl

/-- Witness for the C7 theorem in the two-pane workspace with the
feature disabled. -/
theorem enabled_gates_only_event_sync_witness :
    onActiveLeafChange wsTwoPanes stDisabled (some 1) = (stDisabled, [], false) ∧
    onFileOpen wsTwoPanes stDisabled (some "a.md") = (stDisabled, [], false) ∧
    (linkPaneCommand wsTwoPanes stDisabled).1.linkedLeaves =
      (linkPaneCommand wsTwoPanes { stDisabled with enabled := true }).1.linkedLeaves ∧
    (linkPaneCommand wsTwoPanes stDisabled).2 =
      (linkPaneCommand wsTwoPanes { stDisabled with enabled := true }).2 :=
  enabled_gates_only_event_sync wsTwoPanes stDisabled (some 1) (some "a.md") rfl

/-- Claim C8: syncFileToLinkedLeaves always returns with isSyncing
false — the finally-block reset applies also when the openFile call
throws — and every entry point of the plugin maps a state with a false
flag to a state with a false flag, so outside a propagation call the
flag is always false and future events are never wrongly
suppressed. -/
theorem isSyncing_reset_after_operations (ws : Workspace) (st : PluginState)
    (l : Leaf) (lo : Option Leaf) (f : String) (fo : Option String)
    (h : st.isSyncing = false) :
    (syncFileToLinkedLeaves ws st l (some f)).1.isSyncing = false ∧
    (syncFileToLinkedLeaves ws st l fo).1.isSyncing = false ∧
    (onActiveLeafChange ws st lo).1.isSyncing = false ∧
    (onFileOpen ws st fo).1.isSyncing = false ∧
    (cleanupClosedLeaves ws st).isSyncing = false ∧
    (linkPaneCommand ws st).1.isSyncing = false := by
  have hsync : ∀ (src : Leaf) (g : String),
      (syncFileToLinkedLeaves ws st src (some g)).1.isSyncing = false := fun _ _ => rfl
  refine ⟨hsync l f, ?_, ?_, ?_, ?_, ?_⟩
  · cases fo with
    | none => exact h
    | some g => exact hsync l g
  · unfold onActiveLeafChange
    split
    · exact h
    · cases lo with
      | none => exact h
      | some l' =>
        dsimp only
        cases hlf : leafFile ws l' with
        | none => exact h
        | some g => exact hsync l' g
  · unfold onFileOpen
    split
    · exact h
    · cases ws.activeLeaf with
      | none => exact h
      | some leaf =>
        dsimp only
        split
        · cases fo with
          | none => exact h
          | some g => exact hsync leaf g
        · exact h
  · exact h
  · unfold linkPaneCommand
    cases ws.activeLeaf with
    | none => exact h
    | some leaf => exact h

/-- Witness for the C8 theorem in a workspace where every openFile
call throws: the flag is still false after the propagation. -/
theorem isSyncing_reset_after_operations_witness :
    (syncFileToLinkedLeaves wsThrowing stLinked12 1 (some "a.md")).1.isSyncing = false ∧
    (syncFileToLinkedLeaves wsThrowing stLinked12 1 (some "a.md")).1.isSyncing = false ∧
    (onActiveLeafChange wsThrowing stLinked12 (some 1)).1.isSyncing = false ∧
    (onFileOpen wsThrowing stLinked12 (some "a.md")).1.isSyncing = false ∧
    (cleanupClosedLeaves wsThrowing stLinked12).isSyncing = false ∧
    (linkPaneCommand wsThrowing stLinked12).1.isSyncing = false :=
  isSyncing_reset_after_operations wsThrowing stLinked12 1 (some 1) "a.md" (some "a.md") rfl

/-- Claim C10, counterexample: a reachable state (link panes 1 and 2,
close pane 2, reconcile) in which the linked set of pane 1 is
non-empty — it still holds the closed pane 2, whose view is gone.
The propagation call for pane 1 then instructs no pane at all, not
exactly one pane as claimed. -/
theorem sync_viewless_partner_no_load :
    mapGet (cleanupClosedLeaves wsOnlyPaneOne
      { enabled := true, isSyncing := false,
        linkedLeaves := (linkLeafWithPartner wsTwoPanes [] 1 true).2.1 }).linkedLeaves 1
      = some [2] ∧
    (syncFileToLinkedLeaves wsOnlyPaneOne
      (cleanupClosedLeaves wsOnlyPaneOne
        { enabled := true, isSyncing := false,
          linkedLeaves := (linkLeafWithPartner wsTwoPanes [] 1 true).2.1 })
      1 (some "a.md")).2.1 = [] := by decide

/-- Claim C10 (amended): a single propagation call instructs at most
one pane: when the linked set of the source pane is non-empty, the
first element of that set is instructed to load the document exactly
when it reports a view, and no other pane is ever instructed, even
when the set has more than one member. -/
theorem sync_loads_at_most_first_linked (ws : Workspace) (st : PluginState)
    (l p : Leaf) (rest : List Leaf) (f : String)
    (hs : mapGet st.linkedLeaves l = some (p :: rest)) :
    (syncFileToLinkedLeaves ws st l (some f)).2.1 =
      if ws.hasView p then [(p, f)] else [] := by
  unfold syncFileToLinkedLeaves
  dsimp only
  rw [hs]
  dsimp only
  split
  · split <;> rfl
  next hlen => exact absurd (by simp) hlen

/-- Witness for the C10 theorem: with panes 1 and 2 linked, the
propagation for pane 1 instructs exactly pane 2. -/
theorem sync_loads_at_most_first_linked_witness :
    (syncFileToLinkedLeaves wsTwoPanes stLinked12 1 (some "a.md")).2.1 =
      if wsTwoPanes.hasView 2 then [(2, "a.md")] else [] :=
  sync_loads_at_most_first_linked wsTwoPanes stLinked12 1 2 [] "a.md" (by decide)

end SyncFileOnly
